import Mathlib

/-!
Shallow embedding of the Cloudflare-worker DDNS update endpoint
(`src/index.ts`).  JavaScript strings are modelled as `List Char`
(written `JSStr`); nullable values as `Option`; thrown exceptions as
`Except Fault`.  The remote Cloudflare API is modelled as an oracle
(`CloudflareEnv`) and the handler additionally returns the ordered
trace of remote calls it issued (`List APICall`).
-/

set_option maxHeartbeats 1000000

abbrev JSStr := List Char

/-- JavaScript `String.prototype.split(sep)` for a single-character
separator: splits at every occurrence, keeping empty pieces. -/
def jsSplit (sep : Char) : JSStr → List JSStr
  | [] => [[]]
  | c :: r =>
    if c = sep then [] :: jsSplit sep r
    else
      match jsSplit sep r with
      | [] => [[c]]
      | t :: ts => (c :: t) :: ts

/-- JavaScript `String.prototype.indexOf(c)`, with `none` for `-1`. -/
def jsIndexOf (c : Char) : JSStr → Option Nat
  | [] => none
  | x :: r => if x = c then some 0 else (jsIndexOf c r).map (· + 1)

/-- JavaScript truthiness for a nullable string: `none` and the empty
string are falsy; a truthy value is returned unchanged. -/
def truthyStr : Option JSStr → Option JSStr
  | none => none
  | some s => if s = [] then none else some s

/-- The control-character test of the regex `/[\0-\x1F\x7F]/`. -/
def isCtl (c : Char) : Bool := c.toNat ≤ 31 || c.toNat == 127

/-! ### The platform base64 primitives (`atob` / `btoa`)

`atob` follows the WHATWG forgiving-base64 decode: strip ASCII
whitespace; when the length is a multiple of four strip up to two
trailing `=`; fail when the remaining length is `1 mod 4` or any
character is outside the base64 alphabet; leftover bits are discarded. -/

def b64chars : List Char :=
  "ABCDEFGHIJKLMNOPQRSTUVWXYZabcdefghijklmnopqrstuvwxyz0123456789+/".toList

def encChar (i : Nat) : Char := b64chars.getD i 'A'

def decChar (c : Char) : Option Nat := jsIndexOf c b64chars

def isB64Ws (c : Char) : Bool :=
  c = '\t' || c = '\n' || c = '\x0c' || c = '\r' || c = ' '

/-- Bytes to base64 sextets (last group of 1 or 2 bytes produces 2 or 3
sextets, the missing low bits zero-padded). -/
def toSextets : List Nat → List Nat
  | [] => []
  | [a] => [a / 4, a % 4 * 16]
  | [a, b] => [a / 4, a % 4 * 16 + b / 16, b % 16 * 4]
  | a :: b :: c :: rest =>
    a / 4 :: (a % 4 * 16 + b / 16) :: (b % 16 * 4 + c / 64) :: c % 64 :: toSextets rest

/-- Base64 sextets back to bytes, discarding leftover bits of a trailing
group of 2 or 3 sextets. -/
def sextetsToBytes : List Nat → List Nat
  | s0 :: s1 :: s2 :: s3 :: rest =>
    (s0 * 4 + s1 / 16) :: (s1 % 16 * 16 + s2 / 4) :: (s2 % 4 * 64 + s3) :: sextetsToBytes rest
  | [s0, s1] => [s0 * 4 + s1 / 16]
  | [s0, s1, s2] => [s0 * 4 + s1 / 16, s1 % 16 * 16 + s2 / 4]
  | _ => []

/-- `=`-padding appended by `btoa` for an input of `n` bytes. -/
def padFor (n : Nat) : List Char := List.replicate ((3 - n % 3) % 3) '='

/-- `btoa` on a byte sequence. -/
def btoaBytes (bs : List Nat) : JSStr := (toSextets bs).map encChar ++ padFor bs.length

/-- JavaScript `btoa`: fails (throws) on any code unit above `0xFF`. -/
def btoa (s : JSStr) : Option JSStr :=
  if s.all (fun c => c.toNat < 256) then some (btoaBytes (s.map Char.toNat)) else none

/-- Remove one or two trailing `=` characters. -/
def stripPad (s : JSStr) : JSStr :=
  match s.reverse with
  | e1 :: e2 :: r =>
    if e1 = '=' then (if e2 = '=' then r.reverse else (e2 :: r).reverse) else s
  | e1 :: r => if e1 = '=' then r.reverse else s
  | [] => s

/-- Decode every character through the base64 alphabet, failing on the
first character outside it. -/
def decodeChars : List Char → Option (List Nat)
  | [] => some []
  | c :: r =>
    match decChar c, decodeChars r with
    | some v, some vs => some (v :: vs)
    | _, _ => none

/-- JavaScript `atob` (forgiving-base64 decode); `none` models the
thrown `InvalidCharacterError`. -/
def atob (s : JSStr) : Option JSStr :=
  let s1 := s.filter (fun c => !isB64Ws c)
  let s2 := if s1.length % 4 = 0 then stripPad s1 else s1
  if s2.length % 4 = 1 then none
  else (decodeChars s2).map (fun sx => (sextetsToBytes sx).map Char.ofNat)

/-! ### Data model of the handler -/

/-- The `HttpError` class: a status code plus message.  A thrown value
is either an `HttpError` or some other exception (`thrown`), which the
top-level handler maps to a 500 response. -/
inductive Fault where
  | http : Nat → JSStr → Fault
  | thrown : Fault
deriving DecidableEq

structure ClientOptions where
  apiEmail : JSStr
  apiToken : JSStr
deriving DecidableEq

/-- The `AddressableRecord` value built by `constructDNSRecord`. -/
structure AddressableRecord where
  content : JSStr
  name : JSStr
  type : JSStr
  ttl : Nat
deriving DecidableEq

/-- The parts of the inbound `Request` the handler reads. -/
structure Request where
  /-- `request.headers.get('Authorization')` (`none` = `null`). -/
  authorization : Option JSStr
  /-- `request.headers.get('CF-Connecting-IP')`. -/
  cfConnectingIpHeader : Option JSStr
  /-- `request.cf?.connectingIp`. -/
  cfConnectingIp : Option JSStr
  /-- `url.searchParams.get('hostname')`. -/
  hostnameParam : Option JSStr
  /-- `url.searchParams.get('ip')`. -/
  ipParam : Option JSStr

/-- `atob(data)` / `indexOf(':')` / control-character check / split of
`constructClientOptions`, applied to the second space-separated token of
the header. -/
def parseBasicCredentials (data : JSStr) : Except Fault ClientOptions :=
  match atob data with
  | none => .error .thrown
  | some decoded =>
    match jsIndexOf ':' decoded with
    | none => .error (.http 401 "Invalid API key or token.".toList)
    | some index =>
      if decoded.any isCtl then .error (.http 401 "Invalid API key or token.".toList)
      else .ok ⟨decoded.take index, decoded.drop (index + 1)⟩

/-- `constructClientOptions` of `src/index.ts`: requires a truthy
`Authorization` header, takes its second space-separated token
(JS destructuring yields the string `"undefined"` when absent) and
parses it as base64 `email:token`. -/
def constructClientOptions (request : Request) : Except Fault ClientOptions :=
  match truthyStr request.authorization with
  | none => .error (.http 401 "API token missing.".toList)
  | some authorization =>
    parseBasicCredentials ((jsSplit ' ' authorization).getD 1 "undefined".toList)

/-- `request.cf?.connectingIp || request.headers.get('CF-Connecting-IP')`,
as the first truthy of the two sources. -/
def connectingIp (request : Request) : Option JSStr :=
  match truthyStr request.cfConnectingIp with
  | some s => some s
  | none => truthyStr request.cfConnectingIpHeader

/-- `constructDNSRecord` of `src/index.ts`. -/
def constructDNSRecord (request : Request) : Except Fault AddressableRecord :=
  match truthyStr request.hostnameParam with
  | none => .error (.http 422 "The \"hostname\" parameter is required and cannot be empty.".toList)
  | some hostname =>
    match connectingIp request with
    | none => .error (.http 500 "Unable to determine the client IP address.".toList)
    | some ip =>
      .ok { content := ip
            name := hostname
            type := if ip.contains '.' then "A".toList else "AAAA".toList
            ttl := 1 }

/-! ### The remote API oracle and the update executor -/

structure Zone where
  id : JSStr
deriving DecidableEq

/-- An element of `cloudflare.dns.records.list(...).result`. -/
structure RecordResult where
  id : Option JSStr
  proxied : Option Bool
  comment : Option JSStr
deriving DecidableEq

/-- The body passed to `cloudflare.dns.records.update`. -/
structure RecordUpdateParams where
  content : JSStr
  zone_id : JSStr
  name : JSStr
  type : JSStr
  proxied : Bool
  comment : Option JSStr
deriving DecidableEq

/-- One remote Cloudflare API call, with its arguments. -/
inductive APICall where
  | verify : APICall
  | zonesList : APICall
  | recordsList : JSStr → JSStr → JSStr → APICall
  | recordsUpdate : JSStr → RecordUpdateParams → APICall
deriving DecidableEq

/-- Responses of the remote API, fixed per request: the token status
returned by `user.tokens.verify()`, the zone list, and the record list
as a function of the `(zone_id, name, type)` filter. -/
structure CloudflareEnv where
  tokenStatus : JSStr
  zones : List Zone
  recordsList : JSStr → JSStr → JSStr → List RecordResult

structure Response where
  body : JSStr
  status : Nat
deriving DecidableEq

/-- `update` of `src/index.ts`, returning the outcome together with the
ordered trace of remote calls issued. -/
def update (env : CloudflareEnv) (clientOptions : ClientOptions)
    (newRecord : AddressableRecord) : Except Fault Response × List APICall :=
  let _ := clientOptions
  if env.tokenStatus ≠ "active".toList then
    (.error (.http 401 ("This API Token is ".toList ++ env.tokenStatus)), [.verify])
  else if env.zones.length > 1 then
    (.error (.http 400 "More than one zone was found! You must supply an API Token scoped to a single zone.".toList),
     [.verify, .zonesList])
  else
    match env.zones with
    | [] =>
      (.error (.http 400 "No zones found! You must supply an API Token scoped to a single zone.".toList),
       [.verify, .zonesList])
    | zone :: _ =>
      let q := APICall.recordsList zone.id newRecord.name newRecord.type
      let records := env.recordsList zone.id newRecord.name newRecord.type
      if records.length > 1 then
        (.error (.http 400 "More than one matching record found!".toList), [.verify, .zonesList, q])
      else
        match records with
        | [] =>
          (.error (.http 400 "No record found! You must first manually create the record.".toList),
           [.verify, .zonesList, q])
        | currentRecord :: _ =>
          match currentRecord.id with
          | none =>
            (.error (.http 400 "No record found! You must first manually create the record.".toList),
             [.verify, .zonesList, q])
          | some rid =>
            (.ok ⟨"OK".toList, 200⟩,
             [.verify, .zonesList, q,
              .recordsUpdate rid
                ⟨newRecord.content, zone.id, newRecord.name, newRecord.type,
                 currentRecord.proxied.getD false, currentRecord.comment⟩])

/-- The top-level `catch`: an `HttpError` becomes its own status and
message, anything else becomes `500 Internal Server Error`. -/
def errorResponse : Fault → Response
  | .http code msg => ⟨msg, code⟩
  | .thrown => ⟨"Internal Server Error".toList, 500⟩

/-- The exported `fetch` handler: parse client options, build the
record, run the update, catch faults. -/
def fetchHandler (env : CloudflareEnv) (request : Request) : Response × List APICall :=
  match constructClientOptions request with
  | .error e => (errorResponse e, [])
  | .ok clientOptions =>
    match constructDNSRecord request with
    | .error e => (errorResponse e, [])
    | .ok record =>
      match update env clientOptions record with
      | (.ok r, calls) => (r, calls)
      | (.error e, calls) => (errorResponse e, calls)

/-! ### Concrete fixtures used to instantiate the theorems -/

def optsA : ClientOptions := ⟨"a@b.com".toList, "tok123".toList⟩

def recA : AddressableRecord :=
  ⟨"203.0.113.5".toList, "home.example.com".toList, "A".toList, 1⟩

def reqA : Request :=
  { authorization := some "Basic YUBiLmNvbTp0b2sxMjM=".toList
    cfConnectingIpHeader := some "203.0.113.5".toList
    cfConnectingIp := some "203.0.113.5".toList
    hostnameParam := some "home.example.com".toList
    ipParam := none }

def reqNoAuth : Request :=
  { reqA with authorization := none }

def reqBadB64 : Request :=
  { reqA with authorization := some "Basic AAAAA".toList }

def reqNoHost : Request :=
  { reqA with hostnameParam := none, ipParam := some "9.9.9.9".toList }

def reqNoIp : Request :=
  { reqA with cfConnectingIp := none, cfConnectingIpHeader := none,
              ipParam := some "9.9.9.9".toList }

def reqNoColon : Request :=
  { reqA with authorization := some "Basic bm9jb2xvbg==".toList }

def reqSchemeJunk : Request :=
  { reqA with authorization := some "Bearer YUBiLmNvbTp0b2sxMjM= junk".toList }

def zoneA : Zone := ⟨"zone-1".toList⟩

def recordA : RecordResult := ⟨some "rec-1".toList, some true, some "home".toList⟩

def envA : CloudflareEnv := ⟨"active".toList, [zoneA], fun _ _ _ => [recordA]⟩

def envInactive : CloudflareEnv := ⟨"expired".toList, [zoneA], fun _ _ _ => [recordA]⟩

def envTwoZones : CloudflareEnv :=
  ⟨"active".toList, [zoneA, ⟨"zone-2".toList⟩], fun _ _ _ => [recordA]⟩

/-! ### Case equations for `update` -/

theorem update_inactive (env : CloudflareEnv) (o : ClientOptions) (r : AddressableRecord)
    (h : env.tokenStatus ≠ "active".toList) :
    update env o r =
      (.error (.http 401 ("This API Token is ".toList ++ env.tokenStatus)), [.verify]) := by
  simp only [update]
  rw [if_pos h]

theorem update_zones_zero (env : CloudflareEnv) (o : ClientOptions) (r : AddressableRecord)
    (hact : env.tokenStatus = "active".toList) (hz : env.zones = []) :
    update env o r =
      (.error (.http 400 "No zones found! You must supply an API Token scoped to a single zone.".toList),
       [.verify, .zonesList]) := by
  simp [update, hact, hz]

theorem update_zones_many (env : CloudflareEnv) (o : ClientOptions) (r : AddressableRecord)
    (hact : env.tokenStatus = "active".toList) (hz : env.zones.length > 1) :
    update env o r =
      (.error (.http 400 "More than one zone was found! You must supply an API Token scoped to a single zone.".toList),
       [.verify, .zonesList]) := by
  simp [update, hact, hz]

theorem update_records_zero (env : CloudflareEnv) (o : ClientOptions) (r : AddressableRecord)
    (z : Zone) (hact : env.tokenStatus = "active".toList) (hz : env.zones = [z])
    (hr : env.recordsList z.id r.name r.type = []) :
    update env o r =
      (.error (.http 400 "No record found! You must first manually create the record.".toList),
       [.verify, .zonesList, .recordsList z.id r.name r.type]) := by
  simp [update, hact, hz, hr]

theorem update_records_many (env : CloudflareEnv) (o : ClientOptions) (r : AddressableRecord)
    (z : Zone) (hact : env.tokenStatus = "active".toList) (hz : env.zones = [z])
    (hr : (env.recordsList z.id r.name r.type).length > 1) :
    update env o r =
      (.error (.http 400 "More than one matching record found!".toList),
       [.verify, .zonesList, .recordsList z.id r.name r.type]) := by
  simp [update, hact, hz, hr]

theorem update_record_no_id (env : CloudflareEnv) (o : ClientOptions) (r : AddressableRecord)
    (z : Zone) (cur : RecordResult)
    (hact : env.tokenStatus = "active".toList) (hz : env.zones = [z])
    (hr : env.recordsList z.id r.name r.type = [cur]) (hid : cur.id = none) :
    update env o r =
      (.error (.http 400 "No record found! You must first manually create the record.".toList),
       [.verify, .zonesList, .recordsList z.id r.name r.type]) := by
  simp [update, hact, hz, hr, hid]

theorem update_success (env : CloudflareEnv) (o : ClientOptions) (r : AddressableRecord)
    (z : Zone) (cur : RecordResult) (rid : JSStr)
    (hact : env.tokenStatus = "active".toList) (hz : env.zones = [z])
    (hr : env.recordsList z.id r.name r.type = [cur]) (hid : cur.id = some rid) :
    update env o r =
      (.ok ⟨"OK".toList, 200⟩,
       [.verify, .zonesList, .recordsList z.id r.name r.type,
        .recordsUpdate rid
          ⟨r.content, z.id, r.name, r.type, cur.proxied.getD false, cur.comment⟩]) := by
  simp [update, hact, hz, hr, hid]

/-- The handler either fails before contacting the provider (empty call
trace) or both parsers succeeded and the trace is the update executor's
trace. -/
theorem fetchHandler_trace (env : CloudflareEnv) (req : Request) :
    (fetchHandler env req).2 = [] ∨
    ∃ o rec, constructClientOptions req = .ok o ∧ constructDNSRecord req = .ok rec ∧
      (fetchHandler env req).2 = (update env o rec).2 ∧
      (fetchHandler env req).1 =
        (match (update env o rec).1 with
         | .ok r => r
         | .error e => errorResponse e) := by
  unfold fetchHandler
  rcases hc : constructClientOptions req with e | o
  · exact .inl rfl
  rcases hd : constructDNSRecord req with e | rec
  · exact .inl rfl
  refine .inr ⟨o, rec, rfl, rfl, ?_⟩
  rcases hu : update env o rec with ⟨res, calls⟩
  cases res <;> simp [hu]

/-- C3: when record listing returns exactly one identified record, the
update call sent to the provider carries the new `content`, the same
`name` and `type` as the target, the existing record's `proxied` value
(`false` when absent) and its `comment` unchanged. -/
theorem claim_C3_update_preserves_metadata (env : CloudflareEnv) (o : ClientOptions)
    (r : AddressableRecord) (z : Zone) (cur : RecordResult) (rid : JSStr)
    (hact : env.tokenStatus = "active".toList) (hz : env.zones = [z])
    (hr : env.recordsList z.id r.name r.type = [cur]) (hid : cur.id = some rid) :
    ∃ p : RecordUpdateParams,
      (update env o r).2 =
        [.verify, .zonesList, .recordsList z.id r.name r.type, .recordsUpdate rid p] ∧
      p.content = r.content ∧ p.name = r.name ∧ p.type = r.type ∧
      p.proxied = cur.proxied.getD false ∧ p.comment = cur.comment := by
  refine ⟨⟨r.content, z.id, r.name, r.type, cur.proxied.getD false, cur.comment⟩,
    ?_, rfl, rfl, rfl, rfl, rfl⟩
  rw [update_success env o r z cur rid hact hz hr hid]

/-- Witness for C3 at a concrete environment and record. -/
theorem claim_C3_witness :
    ∃ p : RecordUpdateParams,
      (update envA optsA recA).2 =
        [.verify, .zonesList, .recordsList zoneA.id recA.name recA.type,
         .recordsUpdate "rec-1".toList p] ∧
      p.content = recA.content ∧ p.name = recA.name ∧ p.type = recA.type ∧
      p.proxied = recordA.proxied.getD false ∧ p.comment = recordA.comment :=
  claim_C3_update_preserves_metadata envA optsA recA zoneA recordA "rec-1".toList
    rfl rfl rfl rfl

/-- C5: with an active token, the update executor fails with a 400
`ConfigError` and never issues the record-update call exactly when the
zone listing does not return one zone, or the record listing does not
return one match, or the sole match lacks an identifier. -/
theorem claim_C5_config_error_iff (env : CloudflareEnv) (o : ClientOptions)
    (r : AddressableRecord) (hact : env.tokenStatus = "active".toList) :
    ((∃ m, (update env o r).1 = .error (.http 400 m)) ∧
      ∀ i p, APICall.recordsUpdate i p ∉ (update env o r).2) ↔
    (env.zones.length ≠ 1 ∨
      ∃ zz, env.zones = [zz] ∧
        ((env.recordsList zz.id r.name r.type).length ≠ 1 ∨
          ∃ cur, env.recordsList zz.id r.name r.type = [cur] ∧ cur.id = none)) := by
  rcases hz : env.zones with _ | ⟨z, zs⟩
  · rw [update_zones_zero env o r hact hz]
    simp
  rcases zs with _ | ⟨z2, zs⟩
  swap
  · rw [update_zones_many env o r hact (by rw [hz]; exact Nat.succ_lt_succ (Nat.succ_pos _))]
    simp
  rcases hr : env.recordsList z.id r.name r.type with _ | ⟨cur, rs⟩
  · rw [update_records_zero env o r z hact hz hr]
    simp [hr]
  rcases rs with _ | ⟨cur2, rs⟩
  swap
  · rw [update_records_many env o r z hact hz
      (by rw [hr]; exact Nat.succ_lt_succ (Nat.succ_pos _))]
    simp [hr]
  rcases hid : cur.id with _ | rid
  · rw [update_record_no_id env o r z cur hact hz hr hid]
    simp [hr, hid]
  · rw [update_success env o r z cur rid hact hz hr hid]
    simp [hr, hid]

/-- Witness for C5: two zones yield a 400 with no record-update call. -/
theorem claim_C5_witness :
    (∃ m, (update envTwoZones optsA recA).1 = .error (.http 400 m)) ∧
    ∀ i p, APICall.recordsUpdate i p ∉ (update envTwoZones optsA recA).2 :=
  (claim_C5_config_error_iff envTwoZones optsA recA rfl).mpr (Or.inl (by decide))

/-- C2: the remote update call is only ever issued after every prior
step succeeded (credentials parsed, record built, token active, exactly
one zone, exactly one record carrying an id); with no `Authorization`
header the provider is never contacted, with an inactive token no zone
or record call is issued, and with zones not equal to one no record
list/update call is issued. -/
theorem claim_C2_short_circuit (env : CloudflareEnv) (req : Request) :
    (req.authorization = none →
       fetchHandler env req = (⟨"API token missing.".toList, 401⟩, [])) ∧
    (env.tokenStatus ≠ "active".toList →
       (APICall.zonesList ∉ (fetchHandler env req).2) ∧
       (∀ z n t, APICall.recordsList z n t ∉ (fetchHandler env req).2) ∧
       (∀ i p, APICall.recordsUpdate i p ∉ (fetchHandler env req).2)) ∧
    (env.zones.length ≠ 1 →
       (∀ z n t, APICall.recordsList z n t ∉ (fetchHandler env req).2) ∧
       (∀ i p, APICall.recordsUpdate i p ∉ (fetchHandler env req).2)) ∧
    (∀ i p, APICall.recordsUpdate i p ∈ (fetchHandler env req).2 →
       ∃ o rec z cur rid,
         constructClientOptions req = .ok o ∧
         constructDNSRecord req = .ok rec ∧
         env.tokenStatus = "active".toList ∧
         env.zones = [z] ∧
         env.recordsList z.id rec.name rec.type = [cur] ∧
         cur.id = some rid) := by
  refine ⟨?_, ?_, ?_, ?_⟩
  · intro h
    simp [fetchHandler, constructClientOptions, h, truthyStr, errorResponse]
  · intro h
    rcases fetchHandler_trace env req with he | ⟨o, rec, hc, hd, ht, _⟩
    · simp [he]
    · rw [ht, update_inactive env o rec h]
      simp
  · intro h
    rcases fetchHandler_trace env req with he | ⟨o, rec, hc, hd, ht, _⟩
    · simp [he]
    · rw [ht]
      by_cases hact : env.tokenStatus = "active".toList
      · rcases hz : env.zones with _ | ⟨z, zs⟩
        · rw [update_zones_zero env o rec hact hz]; simp
        · rcases zs with _ | ⟨z2, zs⟩
          · exact absurd (by rw [hz]; rfl) h
          · rw [update_zones_many env o rec hact
              (by rw [hz]; exact Nat.succ_lt_succ (Nat.succ_pos _))]
            simp
      · rw [update_inactive env o rec hact]; simp
  · intro i p hmem
    rcases fetchHandler_trace env req with he | ⟨o, rec, hc, hd, ht, _⟩
    · rw [he] at hmem; simp at hmem
    rw [ht] at hmem
    by_cases hact : env.tokenStatus = "active".toList
    case neg => rw [update_inactive env o rec hact] at hmem; simp at hmem
    rcases hz : env.zones with _ | ⟨z, zs⟩
    · rw [update_zones_zero env o rec hact hz] at hmem; simp at hmem
    rcases zs with _ | ⟨z2, zs⟩
    swap
    · rw [update_zones_many env o rec hact
        (by rw [hz]; exact Nat.succ_lt_succ (Nat.succ_pos _))] at hmem
      simp at hmem
    rcases hr : env.recordsList z.id rec.name rec.type with _ | ⟨cur, rs⟩
    · rw [update_records_zero env o rec z hact hz hr] at hmem; simp at hmem
    rcases rs with _ | ⟨cur2, rs⟩
    swap
    · rw [update_records_many env o rec z hact hz
        (by rw [hr]; exact Nat.succ_lt_succ (Nat.succ_pos _))] at hmem
      simp at hmem
    rcases hid : cur.id with _ | rid
    · rw [update_record_no_id env o rec z cur hact hz hr hid] at hmem; simp at hmem
    · exact ⟨o, rec, z, cur, rid, hc, hd, hact, rfl, hr, hid⟩

/-- Witness for C2: no `Authorization` header gives a 401 with an empty
call trace, and an inactive token never reaches the zone listing. -/
theorem claim_C2_witness :
    fetchHandler envA reqNoAuth = (⟨"API token missing.".toList, 401⟩, []) ∧
    APICall.zonesList ∉ (fetchHandler envInactive reqA).2 :=
  ⟨(claim_C2_short_circuit envA reqNoAuth).1 rfl,
   ((claim_C2_short_circuit envInactive reqA).2.1 (by decide)).1⟩

theorem truthyStr_eq_none_iff (v : Option JSStr) :
    truthyStr v = none ↔ v = none ∨ v = some [] := by
  rcases v with _ | s
  · simp [truthyStr]
  · by_cases h : s = [] <;> simp [truthyStr, h]

theorem connectingIp_eq_none_iff (req : Request) :
    connectingIp req = none ↔
      truthyStr req.cfConnectingIp = none ∧ truthyStr req.cfConnectingIpHeader = none := by
  unfold connectingIp
  rcases h : truthyStr req.cfConnectingIp with _ | s <;> simp [h]

/-- C1: the constructed record's `content` is the transport-observed
connecting IP (the platform value, falling back to the forwarded-IP
header), and the client-supplied `ip` query parameter has no influence:
changing it alone changes neither the constructed record nor the
handler's response or its issued calls (hence identical update
payloads). -/
theorem claim_C1_ip_param_ignored (env : CloudflareEnv) (req : Request) (x : Option JSStr) :
    (∀ rec, constructDNSRecord req = .ok rec → connectingIp req = some rec.content) ∧
    constructDNSRecord { req with ipParam := x } = constructDNSRecord req ∧
    fetchHandler env { req with ipParam := x } = fetchHandler env req := by
  obtain ⟨a, b, c, d, e⟩ := req
  refine ⟨?_, rfl, rfl⟩
  intro rec h
  unfold constructDNSRecord at h
  rcases hh : truthyStr (Request.mk a b c d e).hostnameParam with _ | hn <;> rw [hh] at h
  · simp at h
  rcases hip : connectingIp (Request.mk a b c d e) with _ | ip <;> rw [hip] at h
  · simp at h
  · simp only [Except.ok.injEq] at h
    subst h
    rfl

/-- Witness for C1 at a concrete request and environment. -/
theorem claim_C1_witness :
    connectingIp reqA = some recA.content ∧
    fetchHandler envA { reqA with ipParam := some "6.6.6.6".toList } = fetchHandler envA reqA :=
  ⟨(claim_C1_ip_param_ignored envA reqA (some "6.6.6.6".toList)).1 recA rfl,
   (claim_C1_ip_param_ignored envA reqA (some "6.6.6.6".toList)).2.2⟩

/-- C8: for every successfully constructed record the type is `"A"`
exactly when the resolved IP contains a `.` and `"AAAA"` otherwise, and
the ttl is the fixed value 1. -/
theorem claim_C8_type_and_ttl (req : Request) (rec : AddressableRecord)
    (h : constructDNSRecord req = .ok rec) :
    rec.type = (if rec.content.contains '.' then "A".toList else "AAAA".toList) ∧
    rec.ttl = 1 := by
  unfold constructDNSRecord at h
  rcases hh : truthyStr req.hostnameParam with _ | hn <;> rw [hh] at h
  · simp at h
  rcases hip : connectingIp req with _ | ip <;> rw [hip] at h
  · simp at h
  · simp only [Except.ok.injEq] at h
    subst h
    exact ⟨rfl, rfl⟩

/-- Witness for C8 at a concrete IPv4 request. -/
theorem claim_C8_witness :
    recA.type = (if recA.content.contains '.' then "A".toList else "AAAA".toList) ∧
    recA.ttl = 1 :=
  claim_C8_type_and_ttl reqA recA rfl

/-- C9: the record builder fails with the 422 `ValidationError` exactly
when the `hostname` parameter is missing or empty, and — given a
non-empty hostname — with the 500 `ServerError` exactly when neither the
platform connecting IP nor the forwarded-IP header yields a (non-empty)
address. -/
theorem claim_C9_builder_errors (req : Request) :
    (constructDNSRecord req =
        .error (.http 422 "The \"hostname\" parameter is required and cannot be empty.".toList) ↔
      (req.hostnameParam = none ∨ req.hostnameParam = some [])) ∧
    ((req.hostnameParam ≠ none ∧ req.hostnameParam ≠ some []) →
      (constructDNSRecord req =
          .error (.http 500 "Unable to determine the client IP address.".toList) ↔
        ((req.cfConnectingIp = none ∨ req.cfConnectingIp = some []) ∧
         (req.cfConnectingIpHeader = none ∨ req.cfConnectingIpHeader = some [])))) := by
  constructor
  · rw [← truthyStr_eq_none_iff]
    rcases hh : truthyStr req.hostnameParam with _ | hn
    · simp [constructDNSRecord, hh]
    · rcases hip : connectingIp req with _ | ip <;> simp [constructDNSRecord, hh, hip]
  · intro h
    rw [← truthyStr_eq_none_iff, ← truthyStr_eq_none_iff, ← connectingIp_eq_none_iff]
    rcases hh : truthyStr req.hostnameParam with _ | hn
    · rcases (truthyStr_eq_none_iff _).mp hh with h' | h'
      · exact absurd h' h.1
      · exact absurd h' h.2
    · rcases hip : connectingIp req with _ | ip <;> simp [constructDNSRecord, hh, hip]

/-- Witness for C9: missing hostname gives 422 (ip parameter present),
missing connecting IP gives 500. -/
theorem claim_C9_witness :
    constructDNSRecord reqNoHost =
      .error (.http 422 "The \"hostname\" parameter is required and cannot be empty.".toList) ∧
    constructDNSRecord reqNoIp =
      .error (.http 500 "Unable to determine the client IP address.".toList) :=
  ⟨(claim_C9_builder_errors reqNoHost).1.mpr (Or.inl rfl),
   ((claim_C9_builder_errors reqNoIp).2 ⟨by decide, by decide⟩).mpr ⟨Or.inl rfl, Or.inl rfl⟩⟩

/-! ### Splitting lemmas for the Authorization header -/

theorem jsSplit_sep_cons (sep : Char) (a r : JSStr) (ha : sep ∉ a) :
    jsSplit sep (a ++ sep :: r) = a :: jsSplit sep r := by
  induction a with
  | nil => simp [jsSplit]
  | cons c cs ih =>
    have hc : c ≠ sep := fun h => ha (h ▸ List.mem_cons_self c cs)
    have ih2 := ih (fun h => ha (List.mem_cons_of_mem c h))
    simp [jsSplit, hc, ih2]

theorem jsSplit_no_sep (sep : Char) (a : JSStr) (ha : sep ∉ a) :
    jsSplit sep a = [a] := by
  induction a with
  | nil => rfl
  | cons c cs ih =>
    have hc : c ≠ sep := fun h => ha (h ▸ List.mem_cons_self c cs)
    have ih2 := ih (fun h => ha (List.mem_cons_of_mem c h))
    simp [jsSplit, hc, ih2]

/-- `constructClientOptions` only looks at the second space-separated
token of a truthy Authorization header. -/
theorem cco_second_token (req : Request) (sch rest2 p : JSStr) (hs : ' ' ∉ sch)
    (hsplit : ∃ ts, jsSplit ' ' rest2 = p :: ts)
    (ha : req.authorization = some (sch ++ ' ' :: rest2)) :
    constructClientOptions req = parseBasicCredentials p := by
  obtain ⟨ts, hts⟩ := hsplit
  unfold constructClientOptions
  rw [ha]
  have hne : ¬(sch ++ ' ' :: rest2 = ([] : JSStr)) := by simp
  simp only [truthyStr, if_neg hne]
  rw [jsSplit_sep_cons ' ' sch rest2 hs, hts]
  simp

/-- C6: credential extraction fails with the 401 `AuthError` when the
Authorization header is absent, and — whenever the payload decodes —
when the decoded text has no `:` or contains any control character
(0x00–0x1F or 0x7F), the latter regardless of the `:` position. -/
theorem claim_C6_auth_errors (req : Request) :
    (req.authorization = none →
       constructClientOptions req = .error (.http 401 "API token missing.".toList)) ∧
    (∀ auth d, req.authorization = some auth →
       atob ((jsSplit ' ' auth).getD 1 "undefined".toList) = some d →
       (jsIndexOf ':' d = none ∨ d.any isCtl = true) →
       constructClientOptions req = .error (.http 401 "Invalid API key or token.".toList)) := by
  constructor
  · intro h
    simp [constructClientOptions, h, truthyStr]
  · intro auth d ha hd hbad
    by_cases he : auth = []
    · subst he
      have hn : atob ((jsSplit ' ' ([] : JSStr)).getD 1 "undefined".toList) = none := by decide
      rw [hn] at hd
      simp at hd
    · have h1 : constructClientOptions req =
          parseBasicCredentials ((jsSplit ' ' auth).getD 1 "undefined".toList) := by
        simp [constructClientOptions, ha, truthyStr, he]
      rw [h1]
      unfold parseBasicCredentials
      rw [hd]
      rcases hbad with hb | hb
      · simp [hb]
      · rcases hi : jsIndexOf ':' d with _ | i <;> simp [hi, hb]

/-- Witness for C6: a missing header and a decodable payload with no
colon both give 401. -/
theorem claim_C6_witness :
    constructClientOptions reqNoAuth = .error (.http 401 "API token missing.".toList) ∧
    constructClientOptions reqNoColon =
      .error (.http 401 "Invalid API key or token.".toList) :=
  ⟨(claim_C6_auth_errors reqNoAuth).1 rfl,
   (claim_C6_auth_errors reqNoColon).2 "Basic bm9jb2xvbg==".toList "nocolon".toList
     rfl (by decide) (Or.inl (by decide))⟩

/-- C4 counterexample: for the concrete request whose Authorization
payload `AAAAA` fails base64 decoding, the response status is 500, not
the claimed 401. -/
theorem claim_C4_counterexample :
    atob "AAAAA".toList = none ∧
    (fetchHandler envA reqBadB64).1 = ⟨"Internal Server Error".toList, 500⟩ ∧
    (fetchHandler envA reqBadB64).1.status ≠ 401 := by
  refine ⟨by decide, by decide, by decide⟩

/-- C4 amended: a base64 decode failure of the (truthy) Authorization
header payload is not an `HttpError`; the generic catch maps it to an
HTTP 500 "Internal Server Error" response, with the provider never
contacted. -/
theorem claim_C4_amended_decode_failure (env : CloudflareEnv) (req : Request) (auth : JSStr)
    (ha : req.authorization = some auth) (hne : auth ≠ [])
    (hdec : atob ((jsSplit ' ' auth).getD 1 "undefined".toList) = none) :
    fetchHandler env req = (⟨"Internal Server Error".toList, 500⟩, []) := by
  have hc : constructClientOptions req = .error .thrown := by
    have h1 : constructClientOptions req =
        parseBasicCredentials ((jsSplit ' ' auth).getD 1 "undefined".toList) := by
      simp [constructClientOptions, ha, truthyStr, hne]
    rw [h1]
    unfold parseBasicCredentials
    rw [hdec]
  simp [fetchHandler, hc, errorResponse]

/-- Witness for the amended C4. -/
theorem claim_C4_witness :
    fetchHandler envA reqBadB64 = (⟨"Internal Server Error".toList, 500⟩, []) :=
  claim_C4_amended_decode_failure envA reqBadB64 "Basic AAAAA".toList rfl
    (by decide) (by decide)

/-- C10: the scheme prefix of the Authorization header is never
validated and any text after a second space is ignored: extraction is
determined by the second space-separated token alone, so a header with
an arbitrary scheme and trailing text behaves exactly like
`Basic <payload>`. -/
theorem claim_C10_scheme_ignored (req1 req2 : Request) (scheme p rest : JSStr)
    (hs : ' ' ∉ scheme) (hp : ' ' ∉ p)
    (hr : rest = [] ∨ ∃ t, rest = ' ' :: t)
    (h1 : req1.authorization = some (scheme ++ ' ' :: (p ++ rest)))
    (h2 : req2.authorization = some ("Basic ".toList ++ p)) :
    constructClientOptions req1 = constructClientOptions req2 ∧
    constructClientOptions req1 = parseBasicCredentials p := by
  have k1 : constructClientOptions req1 = parseBasicCredentials p := by
    rcases hr with rfl | ⟨t, rfl⟩
    · rw [List.append_nil] at h1
      exact cco_second_token req1 scheme p p hs ⟨[], jsSplit_no_sep ' ' p hp⟩ h1
    · exact cco_second_token req1 scheme (p ++ ' ' :: t) p hs
        ⟨jsSplit ' ' t, jsSplit_sep_cons ' ' p t hp⟩ h1
  have k2 : constructClientOptions req2 = parseBasicCredentials p :=
    cco_second_token req2 "Basic".toList p p (by decide)
      ⟨[], jsSplit_no_sep ' ' p hp⟩ (by rw [h2]; rfl)
  exact ⟨k1.trans k2.symm, k1⟩

/-- Witness for C10: a `Bearer` scheme with trailing junk extracts the
same credentials as the `Basic` header. -/
theorem claim_C10_witness :
    constructClientOptions reqSchemeJunk = constructClientOptions reqA :=
  (claim_C10_scheme_ignored reqSchemeJunk reqA "Bearer".toList
    "YUBiLmNvbTp0b2sxMjM=".toList " junk".toList (by decide) (by decide)
    (Or.inr ⟨"junk".toList, rfl⟩) rfl rfl).1

/-! ### Round-trip of the base64 model -/

theorem encChar_mem (i : Nat) : encChar i ∈ b64chars := by
  unfold encChar
  rw [List.getD_eq_getElem?_getD]
  by_cases h : i < b64chars.length
  · rw [List.getElem?_eq_getElem h, Option.getD_some]
    exact List.getElem_mem h
  · rw [List.getElem?_eq_none (Nat.le_of_not_lt h), Option.getD_none]
    decide

theorem b64chars_props : ∀ c ∈ b64chars, (!isB64Ws c) = true ∧ c ≠ '=' ∧ c ≠ ' ' := by
  decide

theorem encChar_ne_eq (i : Nat) : encChar i ≠ '=' :=
  (b64chars_props _ (encChar_mem i)).2.1

theorem decChar_encChar_fin : ∀ i : Fin 64, decChar (encChar i.val) = some i.val := by
  decide

theorem decChar_encChar (i : Nat) (h : i < 64) : decChar (encChar i) = some i :=
  decChar_encChar_fin ⟨i, h⟩

theorem toSextets_lt : ∀ bs : List Nat, (∀ x ∈ bs, x < 256) → ∀ s ∈ toSextets bs, s < 64
  | [], _ => by simp [toSextets]
  | [a], h => by
    have ha := h a (by simp)
    intro s hs
    simp only [toSextets, List.mem_cons, List.not_mem_nil, or_false] at hs
    rcases hs with rfl | rfl <;> omega
  | [a, b], h => by
    have ha := h a (by simp)
    have hb := h b (by simp)
    intro s hs
    simp only [toSextets, List.mem_cons, List.not_mem_nil, or_false] at hs
    rcases hs with rfl | rfl | rfl <;> omega
  | a :: b :: c :: rest, h => by
    have ha := h a (by simp)
    have hb := h b (by simp)
    have hc := h c (by simp)
    have ih := toSextets_lt rest (fun x hx => h x (by simp [hx]))
    intro s hs
    simp only [toSextets, List.mem_cons] at hs
    rcases hs with rfl | rfl | rfl | rfl | hs
    · omega
    · omega
    · omega
    · omega
    · exact ih s hs

theorem sextetsToBytes_toSextets : ∀ bs : List Nat, (∀ x ∈ bs, x < 256) →
    sextetsToBytes (toSextets bs) = bs
  | [], _ => rfl
  | [a], h => by
    have ha := h a (by simp)
    simp only [toSextets, sextetsToBytes, List.cons.injEq, and_true]
    omega
  | [a, b], h => by
    have ha := h a (by simp)
    have hb := h b (by simp)
    simp only [toSextets, sextetsToBytes, List.cons.injEq, and_true]
    refine ⟨by omega, by omega⟩
  | a :: b :: c :: rest, h => by
    have ha := h a (by simp)
    have hb := h b (by simp)
    have hc := h c (by simp)
    have ih := sextetsToBytes_toSextets rest (fun x hx => h x (by simp [hx]))
    simp only [toSextets, sextetsToBytes, List.cons.injEq]
    exact ⟨by omega, by omega, by omega, ih⟩

theorem toSextets_length_mod : ∀ bs : List Nat,
    (toSextets bs).length % 4 = 0 ∨ (toSextets bs).length % 4 = 2 ∨
      (toSextets bs).length % 4 = 3
  | [] => by simp [toSextets]
  | [a] => by simp [toSextets]
  | [a, b] => by simp [toSextets]
  | a :: b :: c :: rest => by
    have ih := toSextets_length_mod rest
    simp only [toSextets, List.length_cons]
    omega

theorem toSextets_ne_nil : ∀ bs : List Nat, bs ≠ [] → toSextets bs ≠ []
  | [], h => absurd rfl h
  | [a], _ => by simp [toSextets]
  | [a, b], _ => by simp [toSextets]
  | a :: b :: c :: rest, _ => by simp [toSextets]

theorem padFor_add_three (n : Nat) : padFor (n + 3) = padFor n := by
  unfold padFor
  rw [Nat.add_mod_right]

theorem btoaBytes_cons3 (a b c : Nat) (rest : List Nat) :
    btoaBytes (a :: b :: c :: rest) =
      encChar (a / 4) :: encChar (a % 4 * 16 + b / 16) :: encChar (b % 16 * 4 + c / 64) ::
        encChar (c % 64) :: btoaBytes rest := by
  unfold btoaBytes
  simp only [toSextets, List.map_cons, List.cons_append, List.length_cons]
  rw [show rest.length + 1 + 1 + 1 = rest.length + 3 by omega, padFor_add_three]

theorem btoaBytes_length_mod : ∀ bs : List Nat, (btoaBytes bs).length % 4 = 0
  | [] => by decide
  | [a] => by
    simp [btoaBytes, toSextets, padFor]
  | [a, b] => by
    simp [btoaBytes, toSextets, padFor]
  | a :: b :: c :: rest => by
    have ih := btoaBytes_length_mod rest
    rw [btoaBytes_cons3]
    simp only [List.length_cons]
    omega

theorem btoaBytes_chars (bs : List Nat) :
    ∀ c ∈ btoaBytes bs, (!isB64Ws c) = true ∧ c ≠ ' ' := by
  intro c hc
  unfold btoaBytes at hc
  rcases List.mem_append.mp hc with h | h
  · obtain ⟨i, _, rfl⟩ := List.mem_map.mp h
    exact ⟨(b64chars_props _ (encChar_mem i)).1, (b64chars_props _ (encChar_mem i)).2.2⟩
  · unfold padFor at h
    have he := List.eq_of_mem_replicate h
    subst he
    exact ⟨by decide, by decide⟩

theorem filter_ws_btoaBytes (bs : List Nat) :
    (btoaBytes bs).filter (fun c => !isB64Ws c) = btoaBytes bs :=
  List.filter_eq_self.mpr (fun c hc => (btoaBytes_chars bs c hc).1)

theorem stripPad_append_pad (xs : List Char) (k : Nat) (hmem : '=' ∉ xs) (hk : k ≤ 2)
    (hne : k ≠ 0 → xs ≠ []) :
    stripPad (xs ++ List.replicate k '=') = xs := by
  interval_cases k
  · rw [List.replicate_zero, List.append_nil]
    unfold stripPad
    rcases hr : xs.reverse with _ | ⟨e1, r⟩
    · rfl
    · have he1 : e1 ≠ '=' := by
        intro hh
        apply hmem
        rw [← hh, ← List.mem_reverse, hr]
        exact List.mem_cons_self _ _
      rcases r with _ | ⟨e2, r⟩ <;> simp [he1]
  · have hxs : xs ≠ [] := hne one_ne_zero
    unfold stripPad
    rw [List.reverse_append]
    rcases hr : xs.reverse with _ | ⟨y, ys⟩
    · exact absurd (List.reverse_eq_nil_iff.mp hr) hxs
    · have hy : y ≠ '=' := by
        intro hh
        apply hmem
        rw [← hh, ← List.mem_reverse, hr]
        exact List.mem_cons_self _ _
      simp only [List.replicate, List.reverse_cons, List.reverse_nil, List.nil_append,
        List.singleton_append]
      simp [hy]
      rw [← List.reverse_reverse xs, hr, List.reverse_cons]
  · unfold stripPad
    rw [List.reverse_append]
    simp [List.replicate]

theorem decodeChars_map_encChar (sx : List Nat) (h : ∀ s ∈ sx, s < 64) :
    decodeChars (sx.map encChar) = some sx := by
  induction sx with
  | nil => rfl
  | cons s rest ih =>
    have hs := decChar_encChar s (h s (List.mem_cons_self _ _))
    have ih2 := ih (fun x hx => h x (List.mem_cons_of_mem _ hx))
    simp [decodeChars, hs, ih2]

/-- Decoding inverts encoding on byte sequences. -/
theorem atob_btoaBytes (bs : List Nat) (h : ∀ x ∈ bs, x < 256) :
    atob (btoaBytes bs) = some (bs.map Char.ofNat) := by
  have hpadk : (3 - bs.length % 3) % 3 ≤ 2 := by omega
  have hstrip : stripPad (btoaBytes bs) = (toSextets bs).map encChar := by
    have hmem : '=' ∉ (toSextets bs).map encChar := by
      intro hc
      obtain ⟨i, _, he⟩ := List.mem_map.mp hc
      exact encChar_ne_eq i he
    have hne : (3 - bs.length % 3) % 3 ≠ 0 → (toSextets bs).map encChar ≠ [] := by
      intro hk
      have hbs : bs ≠ [] := by
        intro hb
        subst hb
        simp at hk
      simpa using toSextets_ne_nil bs hbs
    exact stripPad_append_pad _ _ hmem hpadk hne
  have h1 : atob (btoaBytes bs) =
      (if ((toSextets bs).map encChar).length % 4 = 1 then none
       else (decodeChars ((toSextets bs).map encChar)).map
         (fun sx => (sextetsToBytes sx).map Char.ofNat)) := by
    simp only [atob, filter_ws_btoaBytes]
    rw [if_pos (btoaBytes_length_mod bs), hstrip]
  have hlen : ¬(((toSextets bs).map encChar).length % 4 = 1) := by
    rw [List.length_map]
    rcases toSextets_length_mod bs with h4 | h4 | h4 <;> omega
  rw [h1, if_neg hlen, decodeChars_map_encChar _ (toSextets_lt bs h)]
  simp [sextetsToBytes_toSextets bs h]

theorem jsIndexOf_append_cons (c : Char) (a r : JSStr) (ha : c ∉ a) :
    jsIndexOf c (a ++ c :: r) = some a.length := by
  induction a with
  | nil => simp [jsIndexOf]
  | cons x xs ih =>
    have hx : x ≠ c := fun hh => ha (hh ▸ List.mem_cons_self _ _)
    have ih2 := ih (fun hh => ha (List.mem_cons_of_mem _ hh))
    simp [jsIndexOf, hx, ih2]

theorem map_ofNat_toNat (s : JSStr) : (s.map Char.toNat).map Char.ofNat = s := by
  induction s with
  | nil => rfl
  | cons c cs ih => simp [ih, Char.ofNat_toNat]

/-- C7: for every email and token of Latin-1 text with no control
characters whose concatenation `email:token` contains exactly one `:`
(no `:` in either side), extracting credentials from the base64
encoding of `email:token` succeeds and recovers exactly that email and
token, splitting on the first `:`. -/
theorem claim_C7_roundtrip (req : Request) (email token : JSStr)
    (hemail : ∀ c ∈ email, c.toNat < 256 ∧ isCtl c = false)
    (htoken : ∀ c ∈ token, c.toNat < 256 ∧ isCtl c = false)
    (hce : ':' ∉ email) (hct : ':' ∉ token)
    (ha : req.authorization =
      some ("Basic".toList ++ ' ' ::
        btoaBytes ((email ++ ':' :: token).map Char.toNat))) :
    constructClientOptions req = .ok ⟨email, token⟩ := by
  have hspace : ' ' ∉ btoaBytes ((email ++ ':' :: token).map Char.toNat) := by
    intro hc
    exact (btoaBytes_chars _ _ hc).2 rfl
  have hk := cco_second_token req "Basic".toList
    (btoaBytes ((email ++ ':' :: token).map Char.toNat))
    (btoaBytes ((email ++ ':' :: token).map Char.toNat))
    (by decide) ⟨[], jsSplit_no_sep ' ' _ hspace⟩ ha
  have hbytes : ∀ x ∈ (email ++ ':' :: token).map Char.toNat, x < 256 := by
    intro x hx
    obtain ⟨c, hc, rfl⟩ := List.mem_map.mp hx
    rcases List.mem_append.mp hc with h | h
    · exact (hemail c h).1
    · rcases List.mem_cons.mp h with rfl | h
      · decide
      · exact (htoken c h).1
  have hdec : atob (btoaBytes ((email ++ ':' :: token).map Char.toNat)) =
      some (email ++ ':' :: token) := by
    rw [atob_btoaBytes _ hbytes, map_ofNat_toNat]
  have hidx : jsIndexOf ':' (email ++ ':' :: token) = some email.length :=
    jsIndexOf_append_cons ':' email token hce
  have hctl : (email ++ ':' :: token).any isCtl = false := by
    rw [List.any_eq_false]
    intro x hx
    rcases List.mem_append.mp hx with h | h
    · simp [(hemail x h).2]
    · rcases List.mem_cons.mp h with rfl | h
      · decide
      · simp [(htoken x h).2]
  have htake : (email ++ ':' :: token).take email.length = email := List.take_left email _
  have hdrop : (email ++ ':' :: token).drop (email.length + 1) = token := by
    rw [show email ++ ':' :: token = (email ++ [':']) ++ token by simp]
    rw [show email.length + 1 = (email ++ [':']).length by simp]
    exact List.drop_left _ _
  rw [hk]
  unfold parseBasicCredentials
  rw [hdec]
  simp only [hidx, hctl, htake, hdrop, Bool.false_eq_true, if_false]

/-- Witness for C7 at `a@b.com` / `tok123`. -/
theorem claim_C7_witness :
    constructClientOptions reqA = .ok ⟨"a@b.com".toList, "tok123".toList⟩ :=
  claim_C7_roundtrip reqA "a@b.com".toList "tok123".toList (by decide) (by decide)
    (by decide) (by decide) (by decide)
